import Mathlib

/-!
Shallow embedding of `src/msgio.go` (package msgio): a length-prefixed
message framing reader/writer over a byte stream, with a pooled-buffer
reader.  Byte streams are `List Nat` (each element a byte value), machine
integers are `Nat` with explicit truncation modulo 2^32 where the Go code
converts to `uint32`.
-/

namespace Msgio

/-- Errors surfaced by the modelled reader and writer: `errShortBuffer`
models `io.ErrShortBuffer`; the EOF variants model the errors `io.ReadFull`
returns when the stream ends early. -/
inductive Err where
  | errShortBuffer
  | errEOF
  | errUnexpectedEOF
deriving DecidableEq

/-- Big-endian 4-byte encoding of a 32-bit value, as emitted by
`binary.Write(s.W, NBO, &length)` with `NBO = binary.BigEndian`
(src/msgio.go:11,85).  `16777216 = 2^24`, `65536 = 2^16`. -/
def beUint32 (n : Nat) : List Nat :=
  [n / 16777216 % 256, n / 65536 % 256, n / 256 % 256, n % 256]

/-- Big-endian decoding of a 4-byte buffer, as `NBO.Uint32(s.lbuf)`
(src/msgio.go:133): `b0<<24 | b1<<16 | b2<<8 | b3`. -/
def nboUint32 (b : List Nat) : Nat :=
  match b with
  | [b0, b1, b2, b3] => b0 * 16777216 + b1 * 65536 + b2 * 256 + b3
  | _ => 0

/-- The underlying `io.Writer` wrapped by `writer` (src/msgio.go:69-71):
`written` is the byte sequence emitted on the stream so far; `outcomes`
scripts the result of each successive `Write` call on the stream (`none` =
success, `some e` = the call fails with error code `e`; writes are modelled
as atomic, so a failing call emits nothing).  An exhausted script means every
further write succeeds. -/
structure UWriter where
  written : List Nat
  outcomes : List (Option Nat)
deriving DecidableEq

/-- One `Write` call on the underlying stream. -/
def uwrite (w : UWriter) (bs : List Nat) : UWriter × Option Nat :=
  match w.outcomes with
  | [] => (⟨w.written ++ bs, []⟩, none)
  | none :: rest => (⟨w.written ++ bs, rest⟩, none)
  | some e :: rest => (⟨w.written, rest⟩, some e)

/-- `writer.WriteMsg` (src/msgio.go:83-90): `length := uint32(len(msg))` —
a plain conversion, i.e. truncation modulo 2^32, there is no size check —
then write the 4-byte big-endian length with `binary.Write`, returning its
error immediately on failure, and finally write the payload. -/
def writeMsg (w : UWriter) (msg : List Nat) : UWriter × Option Nat :=
  let length := msg.length % 4294967296
  match uwrite w (beUint32 length) with
  | (w1, some e) => (w1, some e)
  | (w1, none) => uwrite w1 msg

/-- State of `reader` (src/msgio.go:100-106): the remaining bytes of the
underlying `io.Reader`, and `next` modelling the `next` field, with `none`
for the `-1` sentinel ("no pending length"). -/
structure RState where
  stream : List Nat
  next : Option Nat
deriving DecidableEq

/-- `io.ReadFull` on the modelled stream: succeed with exactly `n` bytes, or
fail (`io.EOF` when nothing was available, `io.ErrUnexpectedEOF` on a partial
read) after consuming whatever was available. -/
def readFull (st : List Nat) (n : Nat) : Except Err (List Nat) × List Nat :=
  if st.length < n then
    (Except.error (if st.length = 0 then Err.errEOF else Err.errUnexpectedEOF), [])
  else (Except.ok (st.take n), st.drop n)

/-- `reader.nextMsgLen` (src/msgio.go:128-136): if no length is pending
(`s.next == -1`), read 4 bytes into `s.lbuf` and decode big-endian, storing
the result in `s.next`; otherwise return the pending length unchanged. -/
def nextMsgLen (s : RState) : Except Err Nat × RState :=
  match s.next with
  | some n => (Except.ok n, s)
  | none =>
    match readFull s.stream 4 with
    | (Except.error e, rest) => (Except.error e, ⟨rest, none⟩)
    | (Except.ok lbuf, rest) => (Except.ok (nboUint32 lbuf), ⟨rest, some (nboUint32 lbuf)⟩)

/-- Result of `reader.Read`: the returned count, the bytes written into the
caller's buffer (a prefix of it; `[]` when untouched), the returned error,
and the reader state after the call. -/
structure ReadResult where
  count : Nat
  dstWritten : List Nat
  err : Option Err
  state : RState
deriving DecidableEq

/-- `reader.Read` (src/msgio.go:138-150): get the next message length; fail
with `io.ErrShortBuffer` when it exceeds the caller buffer's length `dstLen`
— this return happens before the `s.next = -1` line, so the pending length
survives — otherwise `io.ReadFull` the payload into `msg[:length]` and clear
the pending length.  As in the source, `length` is returned as the count even
when the payload read fails. -/
def read (s : RState) (dstLen : Nat) : ReadResult :=
  match nextMsgLen s with
  | (Except.error e, s1) => ⟨0, [], some e, s1⟩
  | (Except.ok length, s1) =>
    if length > dstLen then ⟨0, [], some Err.errShortBuffer, s1⟩
    else
      match readFull s1.stream length with
      | (Except.error e, rest) => ⟨length, s1.stream.take length, some e, ⟨rest, none⟩⟩
      | (Except.ok bytes, rest) => ⟨length, bytes, none, ⟨rest, none⟩⟩

/-- Modelled from the spec: `multipool.Pool` (the multipool package is not
under src/).  Per §4.3 its `Get(min_size)` either denies the request or
returns a buffer of capacity at least `min_size`; a pool is modelled by the
capacity `Get` grants for each requested minimum size, `none` meaning
denial. -/
abbrev PoolFn := Nat → Option Nat

/-- Modelled from the spec: `multipool.ByteSlicePool`, the default pool,
which "always succeeds by allocating fresh" (§4.3).  The granted capacity is
modelled as the requested minimum; the exact size-class ladder is not
observable through the reader operations. -/
def byteSlicePool : PoolFn := fun n => some n

/-- Result of `reader.ReadMsg`: the returned message buffer (`none` when the
returned slice is nil), the returned error, and the reader state after the
call. -/
structure ReadMsgResult where
  msg : Option (List Nat)
  err : Option Err
  state : RState
deriving DecidableEq

/-- `reader.ReadMsg` (src/msgio.go:152-166): get the next message length;
`pool.Get` a buffer (denial yields `io.ErrShortBuffer`, a return that happens
before the `s.next = -1` line, so the pending length survives); `io.ReadFull`
the payload into the buffer's first `length` bytes and clear the pending
length.  On a payload-read error the returned buffer holds the bytes actually
read; its unfilled tail (fresh zeroed allocation in the modelled pool) is
zeros. -/
def readMsg (pool : PoolFn) (s : RState) : ReadMsgResult :=
  match nextMsgLen s with
  | (Except.error e, s1) => ⟨none, some e, s1⟩
  | (Except.ok length, s1) =>
    match pool length with
    | none => ⟨none, some Err.errShortBuffer, s1⟩
    | some _c =>
      match readFull s1.stream length with
      | (Except.error e, rest) =>
        ⟨some (s1.stream.take length ++ List.replicate (length - s1.stream.length) 0),
         some e, ⟨rest, none⟩⟩
      | (Except.ok bytes, rest) => ⟨some bytes, none, ⟨rest, none⟩⟩

/-- A byte buffer together with its Go capacity: `data.length` is its logical
length (`len`), `capacity` its `cap`, with `len ≤ cap` in Go; the claims
about `ReleaseMsg` only inspect `capacity`. -/
structure Buf where
  data : List Nat
  capacity : Nat
deriving DecidableEq

/-- `reader.ReleaseMsg` (src/msgio.go:168-174): `c := cap(msg)`, clamp `c` to
`multipool.MaxLength` (a constant of the multipool package, kept here as the
parameter `maxLength`), then `s.pool.Put(uint32(c), msg)`.  The result is the
argument pair handed to `Put`. -/
def releaseMsg (maxLength : Nat) (msg : Buf) : Nat × Buf :=
  (if msg.capacity > maxLength then maxLength else msg.capacity, msg)

/-- `NewReaderWithPool` (src/msgio.go:118-123): panic — modelled as
`Except.error` — on a nil pool; otherwise a reader over the given stream with
`next = -1`, i.e. no pending length. -/
def newReaderWithPool (stream : List Nat) (pool : Option PoolFn) :
    Except String (RState × PoolFn) :=
  match pool with
  | none => Except.error ("nil pool")
  | some p => Except.ok (⟨stream, none⟩, p)

/-- `NewReader` (src/msgio.go:111-113): `NewReaderWithPool` with the default
`multipool.ByteSlicePool`. -/
def newReader (stream : List Nat) : Except String (RState × PoolFn) :=
  newReaderWithPool stream (some byteSlicePool)

/-- `readWriter.Close` (src/msgio.go:198-216): close the writer, then the
reader — each close result is given as `none` for success or `some e` for an
error code — collecting the errors in call order; return `none` (a nil error)
when no error occurred, and otherwise the `multiErr` list of the collected
errors. -/
def readWriterClose (wClose rClose : Option Nat) : Option (List Nat) :=
  let errs : List Nat := []
  let errs := match wClose with | some e => errs ++ [e] | none => errs
  let errs := match rClose with | some e => errs ++ [e] | none => errs
  if errs.length > 0 then some errs else none

/-! Helper lemmas. -/

/-- Taking the length of the first summand of an append returns it. -/
theorem take_len_append {α : Type} (l₁ l₂ : List α) : (l₁ ++ l₂).take l₁.length = l₁ := by
  induction l₁ with
  | nil => rfl
  | cons a t ih => simp [ih]

/-- Dropping the length of the first summand of an append returns the rest. -/
theorem drop_len_append {α : Type} (l₁ l₂ : List α) : (l₁ ++ l₂).drop l₁.length = l₂ := by
  induction l₁ with
  | nil => rfl
  | cons a t ih => simp [ih]

/-- Decoding inverts encoding for values in the 32-bit range. -/
theorem nboUint32_beUint32 (n : Nat) (h : n < 4294967296) :
    nboUint32 (beUint32 n) = n := by
  simp only [beUint32, nboUint32]
  omega

/-- `io.ReadFull` of exactly the leading block of a stream succeeds with that
block and leaves the rest. -/
theorem readFull_exact (p rest : List Nat) :
    readFull (p ++ rest) p.length = (Except.ok p, rest) := by
  unfold readFull
  rw [if_neg (by simp only [List.length_append]; omega)]
  rw [take_len_append, drop_len_append]

/-- On a stream whose write script is exhausted (every write succeeds),
`WriteMsg` appends the truncated big-endian length and the payload, with no
error. -/
theorem writeMsg_ok (w0 msg : List Nat) :
    writeMsg ⟨w0, []⟩ msg =
      (⟨w0 ++ (beUint32 (msg.length % 4294967296) ++ msg), []⟩, none) := by
  simp [writeMsg, uwrite]

/-- `nextMsgLen` on a fresh reader state over a well-formed frame decodes the
announced length and records it as pending. -/
theorem nextMsgLen_fresh (p rest : List Nat) (h : p.length < 4294967296) :
    nextMsgLen ⟨beUint32 p.length ++ (p ++ rest), none⟩ =
      (Except.ok p.length, ⟨p ++ rest, some p.length⟩) := by
  have hrf : readFull (beUint32 p.length ++ (p ++ rest)) 4 =
      (Except.ok (beUint32 p.length), p ++ rest) := by
    have h4 := readFull_exact (beUint32 p.length) (p ++ rest)
    simpa [beUint32] using h4
  simp [nextMsgLen, hrf, nboUint32_beUint32 p.length h]

/-- `nextMsgLen` on a state that already has a pending length returns that
length and leaves the state unchanged. -/
theorem nextMsgLen_of_pending (st : RState) (L : Nat) (h : st.next = some L) :
    nextMsgLen st = (Except.ok L, st) := by
  unfold nextMsgLen
  rw [h]

/-- Whenever `nextMsgLen` returns a length, the resulting state holds it as
the pending length. -/
theorem nextMsgLen_sets_pending (s s1 : RState) (L : Nat)
    (h : nextMsgLen s = (Except.ok L, s1)) : s1.next = some L := by
  unfold nextMsgLen at h
  cases hn : s.next with
  | some n =>
    rw [hn] at h
    simp only [Prod.mk.injEq, Except.ok.injEq] at h
    obtain ⟨hL, hs⟩ := h
    rw [← hs, hn, hL]
  | none =>
    rw [hn] at h
    rcases hr : readFull s.stream 4 with ⟨r, rest⟩
    rw [hr] at h
    cases r with
    | error e => simp at h
    | ok lbuf =>
      simp only [Prod.mk.injEq, Except.ok.injEq] at h
      obtain ⟨hL, hs⟩ := h
      rw [← hs]
      simp [hL]

/-- `Read` into a too-small buffer fails with `io.ErrShortBuffer`, writes
nothing, and keeps the post-prefix state. -/
theorem read_short_eq (s s1 : RState) (dstLen L : Nat)
    (h1 : nextMsgLen s = (Except.ok L, s1)) (h2 : dstLen < L) :
    read s dstLen = ⟨0, [], some Err.errShortBuffer, s1⟩ := by
  simp only [read, h1]
  rw [if_pos h2]

/-! Claim theorems. -/

/-- Claim C1: for every payload `p` of representable length, writing `p` with
`WriteMsg` and then reading the produced stream back — through `Read` with a
buffer of at least `len(p)` bytes, or through `ReadMsg` with the default pool
— yields a payload byte-for-byte equal to `p`, consuming exactly the frame
and leaving the remainder of the stream. -/
theorem c1_round_trip (p rest : List Nat) (dstLen : Nat)
    (hlen : p.length < 4294967296) (hdst : p.length ≤ dstLen) :
    read ⟨(writeMsg ⟨[], []⟩ p).1.written ++ rest, none⟩ dstLen =
      ⟨p.length, p, none, ⟨rest, none⟩⟩ ∧
    readMsg byteSlicePool ⟨(writeMsg ⟨[], []⟩ p).1.written ++ rest, none⟩ =
      ⟨some p, none, ⟨rest, none⟩⟩ := by
  have hw : (writeMsg ⟨[], []⟩ p).1.written ++ rest =
      beUint32 p.length ++ (p ++ rest) := by
    rw [writeMsg_ok]
    simp [Nat.mod_eq_of_lt hlen, List.append_assoc]
  rw [hw]
  have hn := nextMsgLen_fresh p rest hlen
  constructor
  · simp only [read, hn]
    rw [if_neg (by omega)]
    rw [readFull_exact]
  · simp only [readMsg, hn, byteSlicePool]
    rw [readFull_exact]

/-- Witness for C1 at a concrete frame. -/
theorem c1_round_trip_witness :
    read ⟨(writeMsg ⟨[], []⟩ [1, 2, 3]).1.written ++ [9], none⟩ 3 =
      ⟨3, [1, 2, 3], none, ⟨[9], none⟩⟩ ∧
    readMsg byteSlicePool ⟨(writeMsg ⟨[], []⟩ [1, 2, 3]).1.written ++ [9], none⟩ =
      ⟨some [1, 2, 3], none, ⟨[9], none⟩⟩ :=
  c1_round_trip [1, 2, 3] [9] 3 (by decide) (by decide)

/-- Counterexample to claim C2: a payload of 2^32 bytes is not rejected —
`WriteMsg` returns no error, and it does write to the stream (the length
truncated to 0, then the payload). -/
theorem c2_no_size_check_counterexample :
    (writeMsg ⟨[], []⟩ (List.replicate 4294967296 0)).2 = none ∧
    (writeMsg ⟨[], []⟩ (List.replicate 4294967296 0)).1.written =
      beUint32 0 ++ List.replicate 4294967296 0 := by
  have h := writeMsg_ok [] (List.replicate 4294967296 0)
  rw [List.length_replicate, Nat.mod_self, List.nil_append] at h
  rw [h]
  exact ⟨rfl, rfl⟩

/-- Claim C2 amended: `WriteMsg` performs no size check; for a payload whose
length exceeds the 32-bit range it succeeds, emitting the length truncated
modulo 2^32 as the prefix followed by the whole payload. -/
theorem c2_oversized_truncates (msg : List Nat) (_h : 4294967296 ≤ msg.length) :
    writeMsg ⟨[], []⟩ msg =
      (⟨beUint32 (msg.length % 4294967296) ++ msg, []⟩, none) := by
  rw [writeMsg_ok]
  rw [List.nil_append]

/-- Witness for the amended C2 at a concrete oversized payload. -/
theorem c2_oversized_truncates_witness :
    writeMsg ⟨[], []⟩ (List.replicate 4294967296 1) =
      (⟨beUint32 0 ++ List.replicate 4294967296 1, []⟩, none) := by
  have h := c2_oversized_truncates (List.replicate 4294967296 1)
    (by rw [List.length_replicate])
  rw [List.length_replicate, Nat.mod_self] at h
  exact h

/-- Claim C3: for a payload `p` of representable length `L` (including
`L = 0`), `WriteMsg` emits on the stream exactly the 4-byte big-endian
encoding of `L` followed by the `L` payload bytes, in that order, with no
error. -/
theorem c3_wire_exact (p : List Nat) (h : p.length < 4294967296) :
    writeMsg ⟨[], []⟩ p = (⟨beUint32 p.length ++ p, []⟩, none) := by
  rw [writeMsg_ok]
  simp [Nat.mod_eq_of_lt h]

/-- Witness for C3 at the empty payload: a 4-byte zero prefix and nothing
else. -/
theorem c3_wire_exact_witness :
    writeMsg ⟨[], []⟩ [] = (⟨[0, 0, 0, 0], []⟩, none) := by
  have h := c3_wire_exact [] (by decide)
  simpa [beUint32] using h

/-- Claim C4: when the pending payload length exceeds the caller's buffer,
`Read` returns a count of 0 and `io.ErrShortBuffer`, writes no byte into the
buffer, and leaves the stream exactly as it stood after the length prefix —
no payload byte is consumed. -/
theorem c4_short_buffer (s s1 : RState) (dstLen L : Nat)
    (h1 : nextMsgLen s = (Except.ok L, s1)) (h2 : dstLen < L) :
    read s dstLen = ⟨0, [], some Err.errShortBuffer, s1⟩ :=
  read_short_eq s s1 dstLen L h1 h2

/-- Witness for C4 at a concrete frame and undersized buffer. -/
theorem c4_short_buffer_witness :
    read ⟨[0, 0, 0, 2, 7, 8], none⟩ 1 =
      ⟨0, [], some Err.errShortBuffer, ⟨[7, 8], some 2⟩⟩ :=
  c4_short_buffer ⟨[0, 0, 0, 2, 7, 8], none⟩ ⟨[7, 8], some 2⟩ 1 2 rfl (by decide)

/-- Counterexample to claim C5: after `Read` fails with `io.ErrShortBuffer`
the pending length is still set (`next = some 2`, not cleared), and the next
`Read` reuses the announced length — it returns the payload without reading a
fresh 4-byte prefix. -/
theorem c5_destructive_counterexample :
    (read ⟨[0, 0, 0, 2, 7, 8], none⟩ 0).err = some Err.errShortBuffer ∧
    (read ⟨[0, 0, 0, 2, 7, 8], none⟩ 0).state.next = some 2 ∧
    read (read ⟨[0, 0, 0, 2, 7, 8], none⟩ 0).state 2 =
      ⟨2, [7, 8], none, ⟨[], none⟩⟩ := by
  refine ⟨rfl, rfl, rfl⟩

/-- Claim C5 amended: when `Read` fails with `io.ErrShortBuffer` the reader
preserves the pending length (forgiving policy): the short-buffer return
happens before the clearing assignment, so the state after the failed call
still carries the announced length and the next `Read` or `ReadMsg` reuses it
instead of reading a fresh 4-byte prefix. -/
theorem c5_pending_preserved (s s1 : RState) (dstLen L : Nat)
    (h1 : nextMsgLen s = (Except.ok L, s1)) (h2 : dstLen < L) :
    (read s dstLen).err = some Err.errShortBuffer ∧
    (read s dstLen).state.next = some L ∧
    nextMsgLen (read s dstLen).state = (Except.ok L, (read s dstLen).state) := by
  have he := read_short_eq s s1 dstLen L h1 h2
  have hp := nextMsgLen_sets_pending s s1 L h1
  rw [he]
  exact ⟨rfl, hp, nextMsgLen_of_pending s1 L hp⟩

/-- Witness for the amended C5 at a concrete frame and undersized buffer. -/
theorem c5_pending_preserved_witness :
    (read ⟨[0, 0, 0, 3, 9, 9, 9], none⟩ 2).err = some Err.errShortBuffer ∧
    (read ⟨[0, 0, 0, 3, 9, 9, 9], none⟩ 2).state.next = some 3 ∧
    nextMsgLen (read ⟨[0, 0, 0, 3, 9, 9, 9], none⟩ 2).state =
      (Except.ok 3, (read ⟨[0, 0, 0, 3, 9, 9, 9], none⟩ 2).state) :=
  c5_pending_preserved ⟨[0, 0, 0, 3, 9, 9, 9], none⟩ ⟨[9, 9, 9], some 3⟩ 2 3
    rfl (by decide)

/-- Counterexample to claim C6: when the pool denies the request, `ReadMsg`
returns `io.ErrShortBuffer` but does not clear the pending length — the state
keeps `next = some 1`. -/
theorem c6_pool_denial_counterexample :
    (readMsg (fun _ => none) ⟨[0, 0, 0, 1, 42], none⟩).err =
      some Err.errShortBuffer ∧
    (readMsg (fun _ => none) ⟨[0, 0, 0, 1, 42], none⟩).state.next = some 1 := by
  refine ⟨rfl, rfl⟩

/-- Claim C6 amended: `ReadMsg` clears the pending length when the pool
grants a buffer — on success and on a payload-read error alike — but
preserves it on a pool denial: that `io.ErrShortBuffer` return happens before
the clearing assignment. -/
theorem c6_pending_clear_policy (pool : PoolFn) (s s1 : RState) (L : Nat)
    (h1 : nextMsgLen s = (Except.ok L, s1)) :
    (pool L = none →
      readMsg pool s = ⟨none, some Err.errShortBuffer, s1⟩ ∧ s1.next = some L) ∧
    (∀ c, pool L = some c → (readMsg pool s).state.next = none) := by
  constructor
  · intro hp
    refine ⟨?_, nextMsgLen_sets_pending s s1 L h1⟩
    simp only [readMsg, h1, hp]
  · intro c hp
    simp only [readMsg, h1, hp]
    rcases hr : readFull s1.stream L with ⟨r, rest⟩
    cases r <;> rfl

/-- Witness for the amended C6 on a concrete frame with a denying pool. -/
theorem c6_pending_clear_policy_witness :
    readMsg (fun _ => none) ⟨[0, 0, 0, 1, 43], none⟩ =
      ⟨none, some Err.errShortBuffer, ⟨[43], some 1⟩⟩ ∧
    (⟨[43], some 1⟩ : RState).next = some 1 :=
  (c6_pending_clear_policy (fun _ => none) ⟨[0, 0, 0, 1, 43], none⟩
    ⟨[43], some 1⟩ 1 rfl).1 rfl

/-- Claim C7: `readWriter.Close` closes the writer first and then the reader,
never stopping at the first failure; it returns nil exactly when both closes
succeed, and otherwise the `multiErr` list of the underlying failures in call
order — writer close error first, then reader close error, with exactly two
entries when both fail. -/
theorem c7_close_aggregation (wClose rClose : Option Nat) :
    readWriterClose wClose rClose =
      match wClose, rClose with
      | none, none => none
      | some e, none => some [e]
      | none, some e => some [e]
      | some e1, some e2 => some [e1, e2] := by
  cases wClose <;> cases rClose <;> rfl

/-- Claim C8: when the underlying write of the 4-byte length prefix fails,
`WriteMsg` returns that error immediately; no payload byte is written and the
stream is left exactly as before the call — no partial frame from this call
(stream writes are modelled as atomic). -/
theorem c8_prefix_write_failure (w0 : List Nat) (e : Nat)
    (outs : List (Option Nat)) (msg : List Nat) :
    writeMsg ⟨w0, some e :: outs⟩ msg = (⟨w0, outs⟩, some e) := by
  rfl

/-- Claim C9: `ReleaseMsg` returns the buffer itself to the pool under the
key `min(cap(buffer), MaxLength)` — its capacity clamped to the maximum
managed size class, independent of its logical length. -/
theorem c9_release_key (maxLength : Nat) (msg : Buf) :
    releaseMsg maxLength msg = (min msg.capacity maxLength, msg) := by
  unfold releaseMsg
  have hc : (if msg.capacity > maxLength then maxLength else msg.capacity) =
      min msg.capacity maxLength := by
    split <;> omega
  rw [hc]

/-- Claim C10: `NewReaderWithPool` panics (modelled as an error) exactly on a
nil pool and otherwise returns a reader with no pending length, so its first
`Read` or `ReadMsg` starts by reading a length prefix; `NewReader` always
supplies the default pool and therefore never panics. -/
theorem c10_new_reader (st : List Nat) :
    newReaderWithPool st none = Except.error ("nil pool") ∧
    (∀ p : PoolFn, newReaderWithPool st (some p) = Except.ok (⟨st, none⟩, p)) ∧
    newReader st = Except.ok (⟨st, none⟩, byteSlicePool) :=
  ⟨rfl, fun _ => rfl, rfl⟩

end Msgio
